import Mathlib

/-!
Verification of the voice-control loop of the astro-brain-rider robot
companion: the orchestrator state machine (src/core/orchestrator.py), the
capture pipeline with recovery and resampling (src/perception/audio.py),
the remote command channel (src/communication/remote_commands.py) and the
dialogue engine (src/cognition/llm.py), shallowly embedded in Lean.
-/

namespace BrainRider

/-! ## Orchestrator state machine (src/core/orchestrator.py) -/

/-- Translation of the State enum of the orchestrator.  The source spells
the capturing state PROCESSING_AUDIO with an underscore; the spec and this
file call it CAPTURING. -/
inductive State where
  | LISTENING
  | CAPTURING
  | THINKING
  | SPEAKING
deriving DecidableEq, Repr

/-- One audio chunk delivered to the callback, as its decoded int16 samples
(np.frombuffer of the raw bytes). -/
abbrev Frame := List Int

/-- Mean absolute amplitude of a frame, translating
np.mean(np.abs(audio_int16)) with exact rational arithmetic. -/
def meanAbs (f : Frame) : ℚ :=
  ((f.map fun x => (x.natAbs : ℚ)).sum) / (f.length : ℚ)

/-- The mutable orchestrator fields touched by the capture callback and the
dispatch path.  Time values are exact rationals standing for the float
timestamps.  UI-only fields (latest_user_text, tick counters) are omitted. -/
structure OrchState where
  state : State
  speech_buffer : List Frame
  is_recording : Bool
  silence_counter : Nat
  is_speaking : Bool
  tts_end_time : ℚ
deriving DecidableEq, Repr

/-- The orchestrator fields as initialised in the constructor. -/
def initState : OrchState :=
  { state := .LISTENING
    speech_buffer := []
    is_recording := false
    silence_counter := 0
    is_speaking := false
    tts_end_time := 0 }

/-- TTS_COOLDOWN_SECS constant from the constructor. -/
def TTS_COOLDOWN_SECS : ℚ := 2

/-- Observable side effects of one run of the audio callback:
whether the wake-word capability was asked to score the frame, and whether a
worker thread was spawned to process the finished utterance. -/
structure CBEffects where
  detectInvoked : Bool
  spawnedProcess : Bool
deriving DecidableEq, Repr

/-- Translation of Orchestrator audio-callback, the body that runs under the
state lock for one incoming chunk.  The wake-word detector is abstracted as
a pure predicate on the frame, and the wall clock reading as the argument
now. -/
def audioCallback (detect : Frame → Bool) (now : ℚ) (s : OrchState)
    (frame : Frame) : OrchState × CBEffects :=
  match s.state with
  | .LISTENING =>
      if s.is_speaking then (s, ⟨false, false⟩)
      else if now - s.tts_end_time < TTS_COOLDOWN_SECS then (s, ⟨false, false⟩)
      else if detect frame then
        ({ s with state := .CAPTURING
                  is_recording := true
                  speech_buffer := [] }, ⟨true, false⟩)
      else (s, ⟨true, false⟩)
  | .CAPTURING =>
      let buf := s.speech_buffer ++ [frame]
      let sc := if meanAbs frame < 500 then s.silence_counter + 1 else 0
      if sc > 30 then
        ({ s with speech_buffer := buf
                  silence_counter := sc
                  is_recording := false
                  state := .THINKING }, ⟨false, true⟩)
      else
        ({ s with speech_buffer := buf, silence_counter := sc }, ⟨false, false⟩)
  | .THINKING => (s, ⟨false, false⟩)
  | .SPEAKING => (s, ⟨false, false⟩)

/-- Feeding a whole sequence of frames through the callback (state part). -/
def runFrames (detect : Frame → Bool) (now : ℚ) (s : OrchState)
    (fs : List Frame) : OrchState :=
  fs.foldl (fun st f => (audioCallback detect now st f).1) s

/-- One response action from the dialogue engine, by the three fields the
dispatch loop reads from each response dict (each may be absent or empty,
Python-falsy, strings). -/
structure RespAction where
  english : Option String
  astroCmd : Option String
  soundEffect : Option String
deriving DecidableEq, Repr

/-- Observable effects of one run of the text-processing (dispatch) path. -/
structure DispatchEffects where
  earlyReturn : Bool
  captureStopped : Bool
  captureRestarted : Bool
  wakewordReset : Bool
  cooldownSet : Bool
  executed : List Nat
  exceptionLogged : Bool
deriving DecidableEq, Repr

/-- Translation of the try-guarded for-loop over response actions inside the
text-processing path.  The whole loop sits inside a single try: an exception
raised while executing action i (modelled by the oracle fails) ends the loop
then and there; it is logged by the except clause.  Returns the indices of
the actions that completed, in order, and whether an exception was logged. -/
def dispatchActions (fails : Nat → Bool) : Nat → List RespAction → List Nat × Bool
  | _, [] => ([], false)
  | i, _ :: rest =>
      if fails i then ([], true)
      else
        let r := dispatchActions fails (i + 1) rest
        (i :: r.1, r.2)

def noDispatch : DispatchEffects := ⟨false, false, false, false, false, [], false⟩

/-- Big-step translation of the text-processing path for one dispatch turn.
With an empty action list it returns at once, touching nothing.  Otherwise it
enters SPEAKING, stops capture, runs the guarded action loop, and the finally
clause unconditionally restarts capture, resets the wake-word detector,
records the cooldown timestamp (now, the clock at completion), clears the
speaking flag, returns to LISTENING and zeroes the silence counter. -/
def processText (fails : Nat → Bool) (actions : List RespAction) (now : ℚ)
    (s : OrchState) : OrchState × DispatchEffects :=
  if actions = [] then
    (s, { noDispatch with earlyReturn := true })
  else
    let r := dispatchActions fails 0 actions
    ({ s with state := .LISTENING
              is_speaking := false
              silence_counter := 0
              tts_end_time := now },
     { earlyReturn := false
       captureStopped := true
       captureRestarted := true
       wakewordReset := true
       cooldownSet := true
       executed := r.1
       exceptionLogged := r.2 })

/-- Translation of the utterance worker: with an empty buffer it returns to
LISTENING at once; otherwise the buffered samples are concatenated and
transcribed (the STT collaborator is the abstract function transcribe); an
empty transcription returns to LISTENING and resets the silence counter, and
otherwise the dialogue result (abstract function llm) is dispatched. -/
def processCommand (transcribe : List Int → String)
    (llm : String → List RespAction) (fails : Nat → Bool) (now : ℚ)
    (s : OrchState) : OrchState × DispatchEffects :=
  if s.speech_buffer = [] then
    ({ s with state := .LISTENING }, noDispatch)
  else
    let text := transcribe s.speech_buffer.flatten
    if text = "" then
      ({ s with state := .LISTENING, silence_counter := 0 }, noDispatch)
    else
      processText fails (llm text) now s

/-- The orchestrator transition relation: any run of the audio callback, of
the utterance worker, or of the text-dispatch path (voice or remote text). -/
inductive OrchStep : OrchState → OrchState → Prop where
  | frame (detect : Frame → Bool) (now : ℚ) (f : Frame) (s : OrchState) :
      OrchStep s (audioCallback detect now s f).1
  | command (transcribe : List Int → String) (llm : String → List RespAction)
      (fails : Nat → Bool) (now : ℚ) (s : OrchState) :
      OrchStep s (processCommand transcribe llm fails now s).1
  | text (fails : Nat → Bool) (actions : List RespAction) (now : ℚ)
      (s : OrchState) :
      OrchStep s (processText fails actions now s).1

/-! ### Capture-callback lemmas -/

/-- A speech-level frame (energy at or above the threshold) while capturing
resets the silence counter and appends the frame. -/
theorem audioCallback_speech (detect : Frame → Bool) (now : ℚ)
    (buf : List Frame) (rec sp : Bool) (sc : Nat) (tt : ℚ) (f : Frame)
    (hf : ¬ meanAbs f < 500) :
    audioCallback detect now ⟨.CAPTURING, buf, rec, sc, sp, tt⟩ f
      = (⟨.CAPTURING, buf ++ [f], rec, 0, sp, tt⟩, ⟨false, false⟩) := by
  simp [audioCallback, hf]

/-- A below-threshold frame while capturing, with the incremented counter not
exceeding 30, increments the counter and appends the frame. -/
theorem audioCallback_silence (detect : Frame → Bool) (now : ℚ)
    (buf : List Frame) (rec sp : Bool) (sc : Nat) (tt : ℚ) (f : Frame)
    (hf : meanAbs f < 500) (hsc : sc + 1 ≤ 30) :
    audioCallback detect now ⟨.CAPTURING, buf, rec, sc, sp, tt⟩ f
      = (⟨.CAPTURING, buf ++ [f], rec, sc + 1, sp, tt⟩, ⟨false, false⟩) := by
  simp [audioCallback, hf]
  omega

/-- The 31st consecutive below-threshold frame fires the end-of-utterance
transition to THINKING. -/
theorem audioCallback_fire (detect : Frame → Bool) (now : ℚ)
    (buf : List Frame) (rec sp : Bool) (tt : ℚ) (f : Frame)
    (hf : meanAbs f < 500) :
    audioCallback detect now ⟨.CAPTURING, buf, rec, 30, sp, tt⟩ f
      = (⟨.THINKING, buf ++ [f], false, 31, sp, tt⟩, ⟨false, true⟩) := by
  simp [audioCallback, hf]

/-- In THINKING the callback has no branch: the frame is dropped. -/
theorem audioCallback_thinking (detect : Frame → Bool) (now : ℚ)
    (s : OrchState) (f : Frame) (hs : s.state = .THINKING) :
    audioCallback detect now s f = (s, ⟨false, false⟩) := by
  rcases s with ⟨st, buf, rec, sc, sp, tt⟩
  cases st <;> simp_all [audioCallback]

/-- Folding a run of speech-level frames while capturing appends them all and
leaves the counter at zero. -/
theorem runFrames_speech (detect : Frame → Bool) (now : ℚ) (l : List Frame)
    (buf : List Frame) (rec sp : Bool) (tt : ℚ)
    (hl : ∀ f ∈ l, ¬ meanAbs f < 500) :
    runFrames detect now ⟨.CAPTURING, buf, rec, 0, sp, tt⟩ l
      = ⟨.CAPTURING, buf ++ l, rec, 0, sp, tt⟩ := by
  induction l generalizing buf with
  | nil => simp [runFrames]
  | cons f l ih =>
      have hf := hl f (List.mem_cons_self f l)
      have hrest : ∀ g ∈ l, ¬ meanAbs g < 500 := fun g hg => hl g (List.mem_cons_of_mem f hg)
      simp only [runFrames, List.foldl_cons, audioCallback_speech detect now buf rec sp 0 tt f hf]
      simpa [runFrames, List.append_assoc] using ih (buf ++ [f]) hrest

/-- Folding a run of below-threshold frames that stays within the 30-frame
budget appends them all and advances the counter by the run length. -/
theorem runFrames_silence (detect : Frame → Bool) (now : ℚ) (l : List Frame)
    (buf : List Frame) (rec sp : Bool) (sc : Nat) (tt : ℚ)
    (hl : ∀ f ∈ l, meanAbs f < 500) (hsc : sc + l.length ≤ 30) :
    runFrames detect now ⟨.CAPTURING, buf, rec, sc, sp, tt⟩ l
      = ⟨.CAPTURING, buf ++ l, rec, sc + l.length, sp, tt⟩ := by
  induction l generalizing buf sc with
  | nil => simp [runFrames]
  | cons f l ih =>
      have hf := hl f (List.mem_cons_self f l)
      have hrest : ∀ g ∈ l, meanAbs g < 500 := fun g hg => hl g (List.mem_cons_of_mem f hg)
      have hb : sc + 1 ≤ 30 := by simp at hsc; omega
      simp only [runFrames, List.foldl_cons, audioCallback_silence detect now buf rec sp sc tt f hf hb]
      have := ih (buf ++ [f]) (sc + 1) hrest (by simp at hsc ⊢; omega)
      simp only [runFrames] at this
      rw [this]
      simp [List.append_assoc]
      omega

/-- Folding a run of below-threshold frames whose length brings the counter
exactly past the threshold fires the transition at its last frame. -/
theorem runFrames_silence_fire (detect : Frame → Bool) (now : ℚ)
    (l : List Frame) (buf : List Frame) (rec sp : Bool) (sc : Nat) (tt : ℚ)
    (hl : ∀ f ∈ l, meanAbs f < 500) (hsc : sc ≤ 30) (hlen : sc + l.length = 31) :
    runFrames detect now ⟨.CAPTURING, buf, rec, sc, sp, tt⟩ l
      = ⟨.THINKING, buf ++ l, false, 31, sp, tt⟩ := by
  induction l generalizing buf sc with
  | nil => simp at hlen; omega
  | cons f l ih =>
      have hf := hl f (List.mem_cons_self f l)
      have hrest : ∀ g ∈ l, meanAbs g < 500 := fun g hg => hl g (List.mem_cons_of_mem f hg)
      by_cases h30 : sc = 30
      · subst h30
        have hl0 : l = [] := by
          simp at hlen
          exact List.eq_nil_of_length_eq_zero (by omega)
        subst hl0
        simp [runFrames, audioCallback_fire detect now buf rec sp tt f hf]
      · have hb : sc + 1 ≤ 30 := by omega
        simp only [runFrames, List.foldl_cons,
          audioCallback_silence detect now buf rec sp sc tt f hf hb]
        have := ih (buf ++ [f]) (sc + 1) hrest (by omega) (by simp at hlen ⊢; omega)
        simp only [runFrames] at this
        rw [this]
        simp [List.append_assoc]

/-- Frames arriving in THINKING never change the state. -/
theorem runFrames_thinking (detect : Frame → Bool) (now : ℚ) (s : OrchState)
    (fs : List Frame) (hs : s.state = .THINKING) :
    runFrames detect now s fs = s := by
  induction fs with
  | nil => rfl
  | cons f l ih =>
      simp only [runFrames, List.foldl_cons, audioCallback_thinking detect now s f hs]
      exact ih

/-! ### Claim theorems: orchestrator -/

/-- C1 counterexample: the silence run-length bound is the hard-coded 30, not
a configurable count of 24, so the spec scenario (wake word, 40 speech-level
frames, 25 below-threshold frames) does NOT reach THINKING: the machine is
still capturing, with 65 frames buffered. -/
def wakeFrame : Frame := [123]

def speechFrame : Frame := [1000]

def silentFrame : Frame := [0]

def detectWake : Frame → Bool := fun f => f == wakeFrame

def scenarioFrames : List Frame :=
  wakeFrame :: (List.replicate 40 speechFrame ++ List.replicate 25 silentFrame)

/-- The sample frame standing for speech is above the energy threshold. -/
theorem speechFrame_loud : ¬ meanAbs speechFrame < 500 := by
  norm_num [meanAbs, speechFrame]

/-- The sample frame standing for silence is below the energy threshold. -/
theorem silentFrame_quiet : meanAbs silentFrame < 500 := by
  norm_num [meanAbs, silentFrame]

/-- Every frame of a speech block is above the threshold. -/
theorem speech_block_loud (n : Nat) :
    ∀ f ∈ List.replicate n speechFrame, ¬ meanAbs f < 500 := by
  intro f hf
  rw [List.eq_of_mem_replicate hf]
  exact speechFrame_loud

/-- Every frame of a silent block is below the threshold. -/
theorem silent_block_quiet (n : Nat) :
    ∀ f ∈ List.replicate n silentFrame, meanAbs f < 500 := by
  intro f hf
  rw [List.eq_of_mem_replicate hf]
  exact silentFrame_quiet

/-- The wake frame fed to the fresh orchestrator fires the wake-word branch:
the machine enters capture with a cleared buffer. -/
theorem wake_step_scenario :
    (audioCallback detectWake 100 initState wakeFrame).1
      = ⟨.CAPTURING, [], true, 0, false, 0⟩ := by
  have h : ¬ (100 : ℚ) < TTS_COOLDOWN_SECS := by norm_num [TTS_COOLDOWN_SECS]
  simp [audioCallback, initState, detectWake, h]

/-- C1: the spec scenario with threshold count 24 fails on the code: after a
wake word, 40 speech-level frames and 25 consecutive below-threshold frames,
the state is still CAPTURING (capturing) with the 65 frames buffered;
the transition to THINKING has not occurred because the hard-coded bound
requires the counter to exceed 30. -/
theorem capture_scenario_25_silence_frames_no_transition :
    (runFrames detectWake 100 initState scenarioFrames).state = .CAPTURING
    ∧ (runFrames detectWake 100 initState scenarioFrames).speech_buffer.length = 65 := by
  have h1 := runFrames_speech detectWake 100 (List.replicate 40 speechFrame)
    [] true false 0 (speech_block_loud 40)
  have h2 := runFrames_silence detectWake 100 (List.replicate 25 silentFrame)
    ([] ++ List.replicate 40 speechFrame) true false 0 0 (silent_block_quiet 25) (by simp)
  simp only [runFrames] at h1 h2
  have hall : runFrames detectWake 100 initState scenarioFrames
      = ⟨.CAPTURING,
          ([] ++ List.replicate 40 speechFrame) ++ List.replicate 25 silentFrame,
          true, 0 + (List.replicate 25 silentFrame).length, false, 0⟩ := by
    simp only [scenarioFrames, runFrames, List.foldl_cons, List.foldl_append]
    rw [wake_step_scenario, h1, h2]
  rw [hall]
  constructor
  · rfl
  · simp

/-- C1 (amended): while capturing with the silence counter at zero, every
frame is appended to the utterance buffer, and the transition to THINKING
happens exactly at the 31st consecutive below-threshold frame (the hard-coded
bound is a run length strictly greater than 30) and never earlier; frames
after the transition are ignored. -/
theorem capture_transition_at_31st_silence_frame :
    ∀ (detect : Frame → Bool) (now : ℚ) (buf0 : List Frame) (rec sp : Bool)
      (tt : ℚ) (a b : List Frame),
      (∀ f ∈ a, ¬ meanAbs f < 500) →
      (∀ f ∈ b, meanAbs f < 500) →
      (∀ k, k ≤ 30 → k ≤ b.length →
        runFrames detect now ⟨.CAPTURING, buf0, rec, 0, sp, tt⟩ (a ++ b.take k)
          = ⟨.CAPTURING, buf0 ++ a ++ b.take k, rec, k, sp, tt⟩)
      ∧ (31 ≤ b.length →
        runFrames detect now ⟨.CAPTURING, buf0, rec, 0, sp, tt⟩ (a ++ b)
          = ⟨.THINKING, buf0 ++ a ++ b.take 31, false, 31, sp, tt⟩) := by
  intro detect now buf0 rec sp tt a b ha hb
  constructor
  · intro k hk30 hkb
    have htk : ∀ f ∈ b.take k, meanAbs f < 500 := fun f hf => hb f (List.take_subset k b hf)
    simp only [runFrames, List.foldl_append]
    have h1 := runFrames_speech detect now a buf0 rec sp tt ha
    simp only [runFrames] at h1
    rw [h1]
    have h2 := runFrames_silence detect now (b.take k) (buf0 ++ a) rec sp 0 tt htk
      (by simp [List.length_take]; omega)
    simp only [runFrames] at h2
    rw [h2]
    simp [List.append_assoc, List.length_take, Nat.min_eq_left hkb]
  · intro h31
    have hsplit : a ++ b = (a ++ b.take 31) ++ b.drop 31 := by
      simp [List.append_assoc]
    rw [hsplit]
    have htk : ∀ f ∈ b.take 31, meanAbs f < 500 := fun f hf => hb f (List.take_subset 31 b hf)
    simp only [runFrames, List.foldl_append]
    have h1 := runFrames_speech detect now a buf0 rec sp tt ha
    simp only [runFrames] at h1
    rw [h1]
    have h2 := runFrames_silence_fire detect now (b.take 31) (buf0 ++ a) rec sp 0 tt htk
      (by omega) (by simp [List.length_take]; omega)
    simp only [runFrames] at h2
    rw [h2]
    have h3 := runFrames_thinking detect now
      ⟨.THINKING, (buf0 ++ a) ++ b.take 31, false, 31, sp, tt⟩ (b.drop 31) rfl
    simp only [runFrames] at h3
    rw [h3]

/-- C1 witness: concretely, from a fresh capture state, 40 speech-level frames
followed by 31 below-threshold frames end in THINKING with all 71 frames
buffered. -/
theorem capture_transition_witness :
    runFrames (fun _ => false) 100 ⟨.CAPTURING, [], true, 0, false, 0⟩
        (List.replicate 40 speechFrame ++ List.replicate 31 silentFrame)
      = ⟨.THINKING, [] ++ List.replicate 40 speechFrame ++ (List.replicate 31 silentFrame).take 31,
          false, 31, false, 0⟩ :=
  (capture_transition_at_31st_silence_frame (fun _ => false) 100 [] true false 0
    (List.replicate 40 speechFrame) (List.replicate 31 silentFrame)
    (speech_block_loud 40) (silent_block_quiet 31)).2 (by simp)

/-- C2: for every dispatch turn with a non-empty action list, whatever
actions fail, the turn ends with capture restarted, the wake-word detector
reset, the cooldown timestamp set to the completion time, the speaking flag
cleared and the state LISTENING. -/
theorem dispatch_housekeeping_unconditional :
    ∀ (fails : Nat → Bool) (actions : List RespAction) (now : ℚ) (s : OrchState),
      actions ≠ [] →
      (processText fails actions now s).1.state = .LISTENING
      ∧ (processText fails actions now s).1.is_speaking = false
      ∧ (processText fails actions now s).1.tts_end_time = now
      ∧ (processText fails actions now s).1.silence_counter = 0
      ∧ (processText fails actions now s).2.captureRestarted = true
      ∧ (processText fails actions now s).2.wakewordReset = true
      ∧ (processText fails actions now s).2.cooldownSet = true := by
  intro fails actions now s h
  simp [processText, h]

/-- C2 witness: a one-action turn whose single action raises still ends in
LISTENING with all housekeeping performed. -/
theorem dispatch_housekeeping_witness :
    (processText (fun _ => true) [⟨some "hi", none, none⟩] 7 initState).1.state = .LISTENING
    ∧ (processText (fun _ => true) [⟨some "hi", none, none⟩] 7 initState).1.is_speaking = false
    ∧ (processText (fun _ => true) [⟨some "hi", none, none⟩] 7 initState).1.tts_end_time = 7
    ∧ (processText (fun _ => true) [⟨some "hi", none, none⟩] 7 initState).1.silence_counter = 0
    ∧ (processText (fun _ => true) [⟨some "hi", none, none⟩] 7 initState).2.captureRestarted = true
    ∧ (processText (fun _ => true) [⟨some "hi", none, none⟩] 7 initState).2.wakewordReset = true
    ∧ (processText (fun _ => true) [⟨some "hi", none, none⟩] 7 initState).2.cooldownSet = true :=
  dispatch_housekeeping_unconditional (fun _ => true) [⟨some "hi", none, none⟩] 7 initState
    (by decide)

/-- C3: while LISTENING, a frame arriving with the speaking flag set, or
within the 2-second post-TTS cooldown window, never reaches the wake-word
detector, and the state is untouched. -/
theorem no_detect_while_speaking_or_cooldown :
    ∀ (detect : Frame → Bool) (now : ℚ) (s : OrchState) (f : Frame),
      s.state = .LISTENING →
      (s.is_speaking = true ∨ now - s.tts_end_time < TTS_COOLDOWN_SECS) →
      (audioCallback detect now s f).2.detectInvoked = false
      ∧ (audioCallback detect now s f).1 = s := by
  intro detect now s f hs h
  rcases s with ⟨st, buf, rec, sc, sp, tt⟩
  simp only [OrchState.state] at hs
  subst hs
  rcases h with h | h
  · simp only [OrchState.is_speaking] at h
    subst h
    simp [audioCallback]
  · simp only [OrchState.tts_end_time] at h
    cases sp <;> simp [audioCallback, h]

/-- C3 witness: with the speaking flag set, a frame that the detector would
accept is nevertheless never shown to it. -/
theorem no_detect_witness :
    (audioCallback (fun _ => true) 100 { initState with is_speaking := true } [0]).2.detectInvoked
      = false :=
  (no_detect_while_speaking_or_cooldown (fun _ => true) 100
    { initState with is_speaking := true } [0] rfl (Or.inl rfl)).1

/-- C4 counterexample: the action loop sits inside one try block, so when the
first of two actions raises, the exception is logged but the second action is
never executed, contrary to the claim that remaining actions still run. -/
theorem dispatch_abort_on_exception :
    (processText (fun i => i == 0)
        [⟨some "a", none, none⟩, ⟨some "b", none, none⟩] 5 initState).2.executed = []
    ∧ (processText (fun i => i == 0)
        [⟨some "a", none, none⟩, ⟨some "b", none, none⟩] 5 initState).2.exceptionLogged = true := by
  decide

/-- The executed prefix of the dispatch loop is exactly the run of action
indices before the first failing one. -/
theorem dispatchActions_eq_takeWhile (fails : Nat → Bool) :
    ∀ (as : List RespAction) (i : Nat),
      (dispatchActions fails i as).1
        = (List.range' i as.length).takeWhile (fun j => !(fails j)) := by
  intro as
  induction as with
  | nil => intro i; simp [dispatchActions]
  | cons a rest ih =>
      intro i
      simp only [dispatchActions, List.length_cons, List.range'_succ, List.takeWhile_cons]
      by_cases h : fails i
      · simp [h]
      · simp [h, ih (i + 1)]

/-- C4 (amended): an exception during one action is logged and aborts the
rest of the turn's actions — exactly the actions before the first failing
index execute, in order — while the terminal housekeeping still runs
unconditionally. -/
theorem dispatch_executes_prefix_before_failure :
    ∀ (fails : Nat → Bool) (actions : List RespAction) (now : ℚ) (s : OrchState),
      actions ≠ [] →
      (processText fails actions now s).2.executed
        = (List.range actions.length).takeWhile (fun j => !(fails j))
      ∧ (processText fails actions now s).1.state = .LISTENING
      ∧ (processText fails actions now s).2.captureRestarted = true
      ∧ (processText fails actions now s).2.wakewordReset = true
      ∧ (processText fails actions now s).2.cooldownSet = true := by
  intro fails actions now s h
  simp [processText, h, dispatchActions_eq_takeWhile, List.range_eq_range']

/-- C4 witness: with the second of three actions failing, only the first
executes and housekeeping still runs. -/
theorem dispatch_executes_prefix_witness :
    (processText (fun i => i == 1)
        [⟨some "a", none, none⟩, ⟨some "b", none, none⟩, ⟨some "c", none, none⟩] 2 initState).2.executed
      = (List.range 3).takeWhile (fun j => !((fun i => i == 1) j))
    ∧ (processText (fun i => i == 1)
        [⟨some "a", none, none⟩, ⟨some "b", none, none⟩, ⟨some "c", none, none⟩] 2 initState).1.state
      = .LISTENING
    ∧ (processText (fun i => i == 1)
        [⟨some "a", none, none⟩, ⟨some "b", none, none⟩, ⟨some "c", none, none⟩] 2 initState).2.captureRestarted = true
    ∧ (processText (fun i => i == 1)
        [⟨some "a", none, none⟩, ⟨some "b", none, none⟩, ⟨some "c", none, none⟩] 2 initState).2.wakewordReset = true
    ∧ (processText (fun i => i == 1)
        [⟨some "a", none, none⟩, ⟨some "b", none, none⟩, ⟨some "c", none, none⟩] 2 initState).2.cooldownSet = true :=
  dispatch_executes_prefix_before_failure (fun i => i == 1)
    [⟨some "a", none, none⟩, ⟨some "b", none, none⟩, ⟨some "c", none, none⟩] 2 initState
    (by decide)

/-- C8 counterexample: a reachable state (wake word then 31 below-threshold
frames) is in THINKING with a non-empty utterance buffer: the buffer is not
cleared on leaving capture, so it is not non-empty only while capturing. -/
def stuckFrames : List Frame := wakeFrame :: List.replicate 31 silentFrame

/-- C8: reachable refutation of the buffer invariant as claimed: after the
end-of-utterance transition the state is THINKING and the buffer still holds
the 31 captured frames. -/
theorem buffer_nonempty_in_thinking :
    (runFrames detectWake 100 initState stuckFrames).state = .THINKING
    ∧ (runFrames detectWake 100 initState stuckFrames).speech_buffer ≠ [] := by
  have h1 := runFrames_silence_fire detectWake 100 (List.replicate 31 silentFrame)
    [] true false 0 0 (silent_block_quiet 31) (by omega) (by simp)
  simp only [runFrames] at h1
  have hall : runFrames detectWake 100 initState stuckFrames
      = ⟨.THINKING, [] ++ List.replicate 31 silentFrame, false, 31, false, 0⟩ := by
    simp only [stuckFrames, runFrames, List.foldl_cons]
    rw [wake_step_scenario, h1]
  rw [hall]
  constructor
  · rfl
  · simp

/-- C8 (amended): on every transition of the orchestrator, any entry into the
capturing state clears the utterance buffer, so no frames of a previous
utterance leak into a new capture. -/
theorem buffer_cleared_on_capture_entry :
    ∀ s s', OrchStep s s' → s.state ≠ State.CAPTURING →
      s'.state = State.CAPTURING → s'.speech_buffer = [] := by
  intro s s' hstep h1 h2
  cases hstep with
  | frame detect now f s =>
      rcases s with ⟨st, buf, rec, sc, sp, tt⟩
      cases st
      · simp only [audioCallback] at h2 ⊢
        split_ifs at h2 ⊢ <;> simp_all
      · exact absurd rfl h1
      · simp_all [audioCallback]
      · simp_all [audioCallback]
  | command transcribe llm fails now s =>
      simp only [processCommand] at h2 ⊢
      split_ifs at h2 ⊢ <;> simp_all [processText]
      split_ifs at h2 ⊢ <;> simp_all
  | text fails actions now s =>
      simp only [processText] at h2 ⊢
      split_ifs at h2 ⊢ <;> simp_all

/-- C8 witness: the wake-word transition from the initial state enters
capturing with an empty buffer. -/
theorem buffer_cleared_witness :
    (audioCallback detectWake 100 initState wakeFrame).1.speech_buffer = [] :=
  buffer_cleared_on_capture_entry initState _
    (OrchStep.frame detectWake 100 wakeFrame initState) (by decide)
    (by simp [wake_step_scenario])

/-- C10: an empty action list makes the text-processing path return at once
with the whole orchestrator state (in particular THINKING, the speaking flag
and the cooldown timestamp) untouched and no housekeeping performed, and
every audio frame arriving in THINKING is dropped by the callback, so no
sequence of frames ever moves the machine out of THINKING. -/
theorem empty_actions_leaves_thinking :
    (∀ (fails : Nat → Bool) (now : ℚ) (s : OrchState),
       processText fails [] now s = (s, { noDispatch with earlyReturn := true }))
    ∧ (∀ (detect : Frame → Bool) (now : ℚ) (s : OrchState) (f : Frame),
       s.state = .THINKING → audioCallback detect now s f = (s, ⟨false, false⟩))
    ∧ (∀ (detect : Frame → Bool) (now : ℚ) (s : OrchState) (fs : List Frame),
       s.state = .THINKING → runFrames detect now s fs = s) := by
  refine ⟨?_, ?_, ?_⟩
  · intro fails now s
    simp [processText]
  · intro detect now s f hs
    exact audioCallback_thinking detect now s f hs
  · intro detect now s fs hs
    exact runFrames_thinking detect now s fs hs

/-- C10 witness: concretely, from a THINKING state an empty dispatch changes
nothing and two further frames leave the state in THINKING. -/
theorem empty_actions_witness :
    processText (fun _ => false) [] 3 { initState with state := .THINKING }
      = ({ initState with state := .THINKING }, { noDispatch with earlyReturn := true })
    ∧ runFrames (fun _ => true) 100 { initState with state := .THINKING } [[5], [6]]
      = { initState with state := .THINKING } :=
  ⟨empty_actions_leaves_thinking.1 (fun _ => false) 3 { initState with state := .THINKING },
   empty_actions_leaves_thinking.2.2 (fun _ => true) 100
     { initState with state := .THINKING } [[5], [6]] rfl⟩

/-! ## Capture pipeline (src/perception/audio.py) -/

/-- Sample count produced by one call of AudioService resample on a frame of
L samples.  Translation of the length behaviour: with equal rates the bytes
are returned unchanged; otherwise the source always calls
resample_poly(audio, 160, 441) with the hard-coded 160/441 ratio, whose
output holds ceiling of L * 160 / 441 samples, whatever hw rate was
negotiated. -/
def resampleOutLen (hwRate targetRate L : Nat) : Nat :=
  if hwRate = targetRate then L else (L * 160 + 440) / 441

/-- Hardware chunk size chosen by start-stream for the fallback path:
int(chunk_size * hw_sample_rate / target_sample_rate). -/
def hwChunkSize (chunkSize hwRate targetRate : Nat) : Nat :=
  chunkSize * hwRate / targetRate

/-- C5 (code bug): the resampler produces the documented count only for the
44100 to 16000 pair; at a fallback device default rate of 48000 Hz the frame
of 3072 samples (the chunk the code itself computes for that rate) comes out
as 1115 samples instead of the 1024 required by L * R_out / R_in within one
sample, because the 160/441 ratio is hard-coded. -/
theorem resample_wrong_length_at_fallback_rate :
    hwChunkSize 1024 44100 16000 = 2822
    ∧ resampleOutLen 44100 16000 2822 = 1024
    ∧ hwChunkSize 1024 48000 16000 = 3072
    ∧ resampleOutLen 48000 16000 3072 = 1115
    ∧ 3072 * 16000 / 48000 = 1024
    ∧ 1024 + 1 < 1115 := by
  decide

/-- Outcome of one run of the reader thread of AudioService, the
read-with-recovery loop. -/
structure ReaderResult where
  recoveryAttempts : Nat
  framesDelivered : Nat
  exitedByBound : Bool
deriving DecidableEq, Repr

/-- Translation of the read-stream-with-recovery loop.  The environment is
the list of inner read-loop episodes that ended in a crash, each recorded by
the number of frames it delivered first (a failed recovery shows up as a
following episode of zero frames).  The argument rc is the running restart
counter (initially 0); max restarts is the hard-coded 5.  An exhausted
episode list stands for a loop still inside the read loop or stopped
externally. -/
def readerRun : Nat → List Nat → ReaderResult
  | _, [] => ⟨0, 0, false⟩
  | rc, f :: rest =>
      if rc + 1 > 5 then ⟨0, f, true⟩
      else
        let r := readerRun (rc + 1) rest
        ⟨r.recoveryAttempts + 1, f + r.framesDelivered, r.exitedByBound⟩

/-- Translation of the health check: running, a stream open, and audio
received within the last 5 seconds. -/
def isHealthy (isRunning streamOpen : Bool) (lastAudioTime now : ℚ) : Bool :=
  if !isRunning || !streamOpen then false
  else decide (now - lastAudioTime < 5)

/-- Recovery attempts of the reader loop, started at restart counter rc, are
bounded by 5 - rc. -/
theorem readerRun_attempts_le (episodes : List Nat) :
    ∀ rc, (readerRun rc episodes).recoveryAttempts ≤ 5 - rc := by
  induction episodes with
  | nil => intro rc; simp [readerRun]
  | cons f rest ih =>
      intro rc
      by_cases h : rc + 1 > 5
      · simp [readerRun, h]
      · have := ih (rc + 1)
        simp only [readerRun, h, if_false]
        omega

/-- A reader loop that keeps crashing gives up after the sixth crash: five
recovery attempts, frames only from the first six episodes, exit by bound. -/
theorem readerRun_bound (episodes : List Nat) :
    ∀ rc, rc ≤ 5 → 6 - rc ≤ episodes.length →
      readerRun rc episodes = ⟨5 - rc, (episodes.take (6 - rc)).sum, true⟩ := by
  induction episodes with
  | nil => intro rc h5 hlen; simp at hlen; omega
  | cons f rest ih =>
      intro rc h5 hlen
      by_cases h : rc + 1 > 5
      · have hrc : rc = 5 := by omega
        subst hrc
        simp [readerRun]
      · have h1 : rc + 1 ≤ 5 := by omega
        have h2 : 6 - (rc + 1) ≤ rest.length := by
          simp only [List.length_cons] at hlen; omega
        have := ih (rc + 1) h1 h2
        simp only [readerRun, h, if_false, this]
        have htake : 6 - rc = (6 - (rc + 1)) + 1 := by omega
        rw [htake]
        simp [List.sum_cons]
        omega

/-- C6: the reader performs at most 5 session-recreation attempts; on the
crash after the fifth the loop exits, delivering no frames beyond the first
six episodes; and once no audio has arrived for 5 seconds the health check
reports unhealthy. -/
theorem reader_bounded_recovery :
    (∀ episodes : List Nat, (readerRun 0 episodes).recoveryAttempts ≤ 5)
    ∧ (∀ episodes : List Nat, 6 ≤ episodes.length →
        readerRun 0 episodes = ⟨5, (episodes.take 6).sum, true⟩)
    ∧ (∀ (isRunning streamOpen : Bool) (lastAudioTime now : ℚ),
        5 ≤ now - lastAudioTime → isHealthy isRunning streamOpen lastAudioTime now = false) := by
  refine ⟨?_, ?_, ?_⟩
  · intro episodes
    exact readerRun_attempts_le episodes 0
  · intro episodes h
    exact readerRun_bound episodes 0 (by omega) (by omega)
  · intro isRunning streamOpen lastAudioTime now h
    cases isRunning <;> cases streamOpen <;> simp [isHealthy]
    linarith

/-- C6 witness: seven consecutive one-frame crash episodes yield exactly 5
recovery attempts, 6 delivered frames and a bound exit, and the stalled
pipeline is unhealthy 10 seconds later. -/
theorem reader_bounded_recovery_witness :
    readerRun 0 (List.replicate 7 1) = ⟨5, ((List.replicate 7 1).take 6).sum, true⟩
    ∧ isHealthy true true 0 10 = false :=
  ⟨reader_bounded_recovery.2.1 (List.replicate 7 1) (by simp),
   reader_bounded_recovery.2.2 true true 0 10 (by norm_num)⟩

/-! ## Remote command channel (src/communication/remote_commands.py) -/

/-- One element of the polled commands array: either the structured form, a
dict with optional command text and optional timestamp (the field the code
uses as the correlation id for acking), or the legacy bare string form. -/
inductive RemoteItem where
  | dict (command : Option String) (timestamp : Option String)
  | str (text : String)
deriving DecidableEq, Repr

/-- Result of processing the commands of one successful poll. -/
structure PollResult where
  dispatched : List String
  ackBatches : List (List String)
deriving DecidableEq, Repr

/-- Translation of the per-item loop of the poll loop: build the dispatched
command texts and the accumulated ack_ids.  The callback is registered
(start was called); cbFails i tells whether the callback raised on item i
(the exception is logged and the item is then not acknowledged).  Python
truthiness of the strings is the non-empty test. -/
def pollItems (cbFails : Nat → Bool) : Nat → List RemoteItem → List String × List String
  | _, [] => ([], [])
  | i, item :: rest =>
      let r := pollItems cbFails (i + 1) rest
      match item with
      | .dict cmd ts =>
          match cmd with
          | some t =>
              if t ≠ "" then
                if cbFails i then r
                else
                  match ts with
                  | some tsid => if tsid ≠ "" then (t :: r.1, tsid :: r.2) else (t :: r.1, r.2)
                  | none => (t :: r.1, r.2)
              else r
          | none => r
      | .str t =>
          if t ≠ "" then (if cbFails i then r else (t :: r.1, r.2)) else r

/-- Translation of one poll cycle over a delivered commands array: hand each
command to the dispatch callback, then send a single batch ack exactly when
some acknowledgeable command was handed off. -/
def pollCycle (cbFails : Nat → Bool) (items : List RemoteItem) : PollResult :=
  let r := pollItems cbFails 0 items
  ⟨r.1, if r.2 = [] then [] else [r.2]⟩

/-- The commands handed off in one cycle, specified independently: every
item, dict or legacy string, with a non-empty command text whose callback
run succeeds, in order. -/
def dispatchSpec (cbFails : Nat → Bool) (items : List RemoteItem) : List String :=
  (items.enum.filterMap fun p =>
    match p.2 with
    | .dict (some t) _ => if t ≠ "" ∧ ¬ cbFails p.1 then some t else none
    | .dict none _ => none
    | .str t => if t ≠ "" ∧ ¬ cbFails p.1 then some t else none)

/-- The correlation ids due an ack in one cycle, specified independently:
the non-empty timestamps of dict items with a non-empty command text whose
callback run succeeds, in order. -/
def ackSpec (cbFails : Nat → Bool) (items : List RemoteItem) : List String :=
  (items.enum.filterMap fun p =>
    match p.2 with
    | .dict (some t) (some tsid) =>
        if t ≠ "" ∧ ¬ cbFails p.1 ∧ tsid ≠ "" then some tsid else none
    | _ => none)

/-- The item loop agrees with the two independent specifications, for any
start index (items.enumFrom-style shifting). -/
theorem pollItems_spec (cbFails : Nat → Bool) :
    ∀ (items : List RemoteItem) (i : Nat),
      (pollItems cbFails i items).1
        = ((items.enumFrom i).filterMap fun p =>
            match p.2 with
            | .dict (some t) _ => if t ≠ "" ∧ ¬ cbFails p.1 then some t else none
            | .dict none _ => none
            | .str t => if t ≠ "" ∧ ¬ cbFails p.1 then some t else none)
      ∧ (pollItems cbFails i items).2
        = ((items.enumFrom i).filterMap fun p =>
            match p.2 with
            | .dict (some t) (some tsid) =>
                if t ≠ "" ∧ ¬ cbFails p.1 ∧ tsid ≠ "" then some tsid else none
            | _ => none) := by
  intro items
  induction items with
  | nil => intro i; simp [pollItems]
  | cons item rest ih =>
      intro i
      have hrest := ih (i + 1)
      cases item with
      | dict cmd ts =>
          cases cmd with
          | some t =>
              cases ts with
              | some tsid =>
                  by_cases ht : t = ""
                  · subst ht
                    simp [pollItems, List.enumFrom, List.filterMap_cons, hrest.1, hrest.2]
                  · by_cases hf : cbFails i
                    · simp [pollItems, List.enumFrom, List.filterMap_cons, ht, hf, hrest.1, hrest.2]
                    · by_cases hts : tsid = ""
                      · subst hts
                        simp [pollItems, List.enumFrom, List.filterMap_cons, ht, hf, hrest.1, hrest.2]
                      · simp [pollItems, List.enumFrom, List.filterMap_cons, ht, hf, hts, hrest.1, hrest.2]
              | none =>
                  by_cases ht : t = ""
                  · subst ht
                    simp [pollItems, List.enumFrom, List.filterMap_cons, hrest.1, hrest.2]
                  · by_cases hf : cbFails i
                    · simp [pollItems, List.enumFrom, List.filterMap_cons, ht, hf, hrest.1, hrest.2]
                    · simp [pollItems, List.enumFrom, List.filterMap_cons, ht, hf, hrest.1, hrest.2]
          | none =>
              simp [pollItems, List.enumFrom, List.filterMap_cons, hrest.1, hrest.2]
      | str t =>
          by_cases ht : t = ""
          · subst ht
            simp [pollItems, List.enumFrom, List.filterMap_cons, hrest.1, hrest.2]
          · by_cases hf : cbFails i
            · simp [pollItems, List.enumFrom, List.filterMap_cons, ht, hf, hrest.1, hrest.2]
            · simp [pollItems, List.enumFrom, List.filterMap_cons, ht, hf, hrest.1, hrest.2]

/-- C7: in each poll cycle every command with a non-empty payload whose
hand-off succeeds is dispatched, in order; exactly one ack batch is sent
when at least one successfully handed-off command carried a correlation id,
containing exactly those ids, and no batch is sent otherwise, so id-less
commands are handed off without being acknowledged; concretely, a single
delivered command with id 42 yields one dispatch and the single ack batch
containing exactly 42. -/
theorem poll_acks_exactly_dispatched_ids :
    (∀ (cbFails : Nat → Bool) (items : List RemoteItem),
      pollCycle cbFails items
        = ⟨dispatchSpec cbFails items,
           if ackSpec cbFails items = [] then [] else [ackSpec cbFails items]⟩)
    ∧ pollCycle (fun _ => false) [.dict (some "hello") (some "42")]
        = ⟨["hello"], [["42"]]⟩
    ∧ pollCycle (fun _ => false) [.dict (some "lone wolf") none]
        = ⟨["lone wolf"], []⟩ := by
  refine ⟨?_, by decide, by decide⟩
  intro cbFails items
  have h := pollItems_spec cbFails items 0
  simp only [pollCycle, dispatchSpec, ackSpec, List.enum]
  rw [h.1, h.2]

/-! ## Dialogue engine (src/cognition/llm.py)

Moltbot integration is disabled in the default configuration, so the direct
path of LLMService process and its response parser are modelled.  Python
strings are modelled as lists of characters, JSON values by the inductive J,
and the json module loads by an executable parser of the JSON fragment the
system exchanges (null, booleans, integers, strings with the common escapes,
arrays, objects); as in Python, loading fails unless the whole input, up to
trailing whitespace, is one value. -/

/-- A decoded JSON value (Python object resulting from json loads). -/
inductive J where
  | null
  | bool (b : Bool)
  | num (n : Int)
  | str (s : List Char)
  | arr (elems : List J)
  | obj (fields : List (List Char × J))

/-- The opening curly brace character. -/
def lbrace : Char := Char.ofNat 123

/-- The closing curly brace character. -/
def rbrace : Char := Char.ofNat 125

/-- First index of a character, the str find method (None for -1). -/
def findIdx : List Char → Char → Option Nat
  | [], _ => none
  | x :: xs, c => if x == c then some 0 else (findIdx xs c).map (· + 1)

/-- Last index of a character, the str rfind method (None for -1). -/
def rfindIdx (cs : List Char) (c : Char) : Option Nat :=
  (findIdx cs.reverse c).map (fun i => cs.length - 1 - i)

/-- Drop leading JSON whitespace. -/
def skipWs : List Char → List Char
  | [] => []
  | c :: cs =>
      if c == ' ' || c == '\n' || c == '\t' || c == '\r' then skipWs cs
      else c :: cs

/-- Parse the body of a JSON string literal after its opening quote,
returning the decoded characters and the rest of the input. -/
def parseStrBody : List Char → Option (List Char × List Char)
  | [] => none
  | c :: cs =>
      if c == '"' then some ([], cs)
      else if c == '\\' then
        match cs with
        | [] => none
        | e :: cs2 =>
            let esc : Option Char :=
              if e == '"' then some '"'
              else if e == '\\' then some '\\'
              else if e == '/' then some '/'
              else if e == 'n' then some '\n'
              else if e == 't' then some '\t'
              else if e == 'r' then some '\r'
              else none
            match esc with
            | some ch => (parseStrBody cs2).map (fun r => (ch :: r.1, r.2))
            | none => none
      else (parseStrBody cs).map (fun r => (c :: r.1, r.2))

/-- Longest leading run of decimal digits. -/
def takeDigits : List Char → List Char × List Char
  | [] => ([], [])
  | c :: cs =>
      if c.isDigit then
        let r := takeDigits cs
        (c :: r.1, r.2)
      else ([], c :: cs)

/-- Numeric value of a digit run. -/
def digitsToNat (ds : List Char) : Nat :=
  ds.foldl (fun acc c => acc * 10 + (c.toNat - 48)) 0

mutual

/-- Parse one JSON value, returning it and the unconsumed input.  The fuel
argument dominates the recursion depth; any fuel above the input length is
enough. -/
def parseVal : Nat → List Char → Option (J × List Char)
  | 0, _ => none
  | fuel + 1, cs =>
      match skipWs cs with
      | [] => none
      | c :: rest =>
          if c == 'n' then
            match rest with
            | 'u' :: 'l' :: 'l' :: r => some (.null, r)
            | _ => none
          else if c == 't' then
            match rest with
            | 'r' :: 'u' :: 'e' :: r => some (.bool true, r)
            | _ => none
          else if c == 'f' then
            match rest with
            | 'a' :: 'l' :: 's' :: 'e' :: r => some (.bool false, r)
            | _ => none
          else if c == '"' then
            (parseStrBody rest).map (fun r => (.str r.1, r.2))
          else if c == '[' then
            match skipWs rest with
            | ']' :: r => some (.arr [], r)
            | r2 => (parseItems fuel r2).map (fun r => (.arr r.1, r.2))
          else if c == lbrace then
            match skipWs rest with
            | [] => none
            | c2 :: r2 =>
                if c2 == rbrace then some (.obj [], r2)
                else (parseFields fuel (c2 :: r2)).map (fun r => (.obj r.1, r.2))
          else if c == '-' then
            let r := takeDigits rest
            if r.1 = [] then none
            else some (.num (-(digitsToNat r.1 : Int)), r.2)
          else if c.isDigit then
            let r := takeDigits (c :: rest)
            some (.num (digitsToNat r.1), r.2)
          else none

/-- Parse the comma-separated elements of a non-empty JSON array, up to and
including the closing bracket. -/
def parseItems : Nat → List Char → Option (List J × List Char)
  | 0, _ => none
  | fuel + 1, cs =>
      match parseVal fuel cs with
      | none => none
      | some (v, r) =>
          match skipWs r with
          | ',' :: r2 => (parseItems fuel r2).map (fun p => (v :: p.1, p.2))
          | ']' :: r2 => some ([v], r2)
          | _ => none

/-- Parse the comma-separated fields of a non-empty JSON object, up to and
including the closing brace. -/
def parseFields : Nat → List Char → Option (List (List Char × J) × List Char)
  | 0, _ => none
  | fuel + 1, cs =>
      match skipWs cs with
      | '"' :: r =>
          match parseStrBody r with
          | none => none
          | some (k, r2) =>
              match skipWs r2 with
              | ':' :: r3 =>
                  match parseVal fuel r3 with
                  | none => none
                  | some (v, r4) =>
                      match skipWs r4 with
                      | ',' :: r5 => (parseFields fuel r5).map (fun p => ((k, v) :: p.1, p.2))
                      | c :: r5 => if c == rbrace then some ([(k, v)], r5) else none
                      | [] => none
              | _ => none
      | _ => none

end

/-- Model of json loads: parse one value and require only whitespace after
it. -/
def jsonLoads (cs : List Char) : Option J :=
  match parseVal (cs.length + 1) cs with
  | some (v, rest) => if skipWs rest = [] then some v else none
  | none => none

/-- Translation of the brace-matching scan of the response parser over the
whole response text: a running index, an integer nesting counter (Python
ints go negative on stray closers), the pending object start (None for -1)
and the json objects decoded so far; candidate slices that fail to load are
logged and skipped. -/
def scanGo (full : List Char) : List Char → Nat → Int → Option Nat → List J → List J
  | [], _, _, _, acc => acc
  | c :: rest, i, stack, objStart, acc =>
      if c == lbrace then
        scanGo full rest (i + 1) (stack + 1)
          (if stack = 0 then some i else objStart) acc
      else if c == rbrace then
        let stack2 := stack - 1
        if stack2 = 0 then
          match objStart with
          | some os =>
              let objStr := (full.drop os).take (i + 1 - os)
              let acc2 := match jsonLoads objStr with
                | some v => acc ++ [v]
                | none => acc
              scanGo full rest (i + 1) stack2 none acc2
          | none => scanGo full rest (i + 1) stack2 none acc
        else scanGo full rest (i + 1) stack2 objStart acc
      else scanGo full rest (i + 1) stack objStart acc

/-- All top-level brace-delimited objects decoded from a response text. -/
def scanObjs (cs : List Char) : List J := scanGo cs cs 0 0 none []

/-- The response field keys and tag the process loop inspects. -/
def typeKey : List Char := "type".toList

def toolUseTag : List Char := "tool_use".toList

def toolNameKey : List Char := "tool_name".toList

def toolArgsKey : List Char := "tool_args".toList

/-- The fixed fallback action dict shape used by the dialogue engine. -/
def fallbackAction (msg : List Char) : J :=
  .obj [("type".toList, .str "conversation".toList),
        ("english_response".toList, .str msg),
        ("astro_command".toList, .null),
        ("sound_effect".toList, .null),
        ("emotion".toList, .str "confused".toList)]

/-- Fallback returned when no JSON can be extracted from the reply. -/
def fallbackTongue : J := fallbackAction "Whoops, I got a bit tongue tied.".toList

/-- Fallback returned when the API call raises. -/
def fallbackTrouble : J := fallbackAction "Sorry partner, I'm having trouble thinking.".toList

/-- Fallback returned when no client was initialised. -/
def fallbackNoBrain : J := fallbackAction "My brain ain't connected.".toList

/-- End bound of the list slice: rfind of the closing bracket plus one,
zero when absent (the Python -1 + 1). -/
def listEndIdx (cs : List Char) : Nat :=
  match rfindIdx cs ']' with
  | some e => e + 1
  | none => 0

/-- The response slice handed to json loads on the list path. -/
def listSlice (cs : List Char) (start : Nat) : List Char :=
  (cs.drop start).take (listEndIdx cs - start)

/-- The list path of the response parser: load the slice from the first
bracket to past the last closing bracket; a decoded list is returned as is
(even empty), a decoded non-list is wrapped, and a load failure falls back
(the raised error is caught by the enclosing except clause). -/
def parseFromList (cs : List Char) (start : Nat) : List J :=
  match jsonLoads (listSlice cs start) with
  | some (.arr xs) => xs
  | some v => [v]
  | none => [fallbackTongue]

/-- The object path of the response parser: the brace scan, falling back
when it decodes nothing. -/
def parseFromObjScan (cs : List Char) : List J :=
  match scanObjs cs with
  | [] => [fallbackTongue]
  | objs => objs

/-- Translation of the response parser: locate the first brace and first
bracket and dispatch to the list or object path; no JSON opener at all means
the raised error is caught and the tongue-tied fallback returned. -/
def parseLlmResponse (cs : List Char) : List J :=
  match findIdx cs lbrace, findIdx cs '[' with
  | some b, some k => if b < k then parseFromObjScan cs else parseFromList cs k
  | some _, none => parseFromObjScan cs
  | none, some k => parseFromList cs k
  | none, none => [fallbackTongue]

/-- Outcome of one API call of the dialogue engine: an exception (connection
or API error, timeout) or a raw reply text. -/
inductive ApiOutcome where
  | fail
  | ok (reply : List Char)

/-- The environment of the dialogue engine: whether the client was
initialised, the API outcome per query text, and the skill results (time,
weather by argument, and whether the patrol capability is linked). -/
structure LlmEnv where
  clientSome : Bool
  api : List Char → ApiOutcome
  timeResult : List Char
  weatherResult : J → List Char
  patrolLinked : Bool

/-- Translation of the query helper: without a client a canned fallback, on
an API exception the trouble fallback, else the parsed reply. -/
def queryLlm (env : LlmEnv) (input : List Char) : List J :=
  if env.clientSome = false then [fallbackNoBrain]
  else
    match env.api input with
    | .fail => [fallbackTrouble]
    | .ok reply => parseLlmResponse reply

/-- The modelled Python exceptions that escape process. -/
inductive PyErr where
  | attributeError
deriving DecidableEq, Repr

/-- Dictionary field lookup (dict get with default None). -/
def getField : List (List Char × J) → List Char → Option J
  | [], _ => none
  | kv :: rest, key => if kv.1 = key then some kv.2 else getField rest key

/-- The get method call on a decoded value: only dicts have it; on any other
value the attribute access raises. -/
def pyGet : J → List Char → Except PyErr (Option J)
  | .obj fs, k => .ok (getField fs k)
  | _, _ => .error .attributeError

/-- Python truthiness of a decoded JSON value. -/
def pyTruthy : J → Bool
  | .null => false
  | .bool b => b
  | .num n => n != 0
  | .str s => !s.isEmpty
  | .arr l => !l.isEmpty
  | .obj l => !l.isEmpty

/-- Abstraction of the interpolated message of a caught tool exception. -/
def toolErrorMsg : List Char := "Error executing tool: ".toList

/-- Translation of the tool-dispatch block of process, which runs inside a
try and so never raises: tool_args is the tool_args field defaulted and
or-ed to an empty list; the three known tools consult the skill registry
(environment), anything else reports tool not found; a non-indexable truthy
tool_args makes the weather branch raise, caught into the error message. -/
def execTool (env : LlmEnv) (toolName : Option J) (toolArgsRaw : Option J) : List Char :=
  let ta : J := match toolArgsRaw with
    | none => .arr []
    | some v => if pyTruthy v then v else .arr []
  match toolName with
  | some (.str s) =>
      if s = "get_current_time".toList then env.timeResult
      else if s = "get_weather".toList then
        match ta with
        | .arr (x :: _) => env.weatherResult x
        | .arr [] => env.weatherResult (.str [])
        | .str (c :: _) => env.weatherResult (.str [c])
        | _ => toolErrorMsg
      else if s = "start_patrol".toList then
        if env.patrolLinked then "Patrol started.".toList
        else "Patrol capability not linked.".toList
      else "Tool not found.".toList
  | _ => "Tool not found.".toList

/-- String form of a looked-up field, for prompt interpolation (container
reprs abstracted). -/
def pyStrOfField : Option J → List Char
  | some (.str s) => s
  | some (.num n) => (toString n).toList
  | some (.bool true) => "True".toList
  | some (.bool false) => "False".toList
  | some .null => "None".toList
  | some (.arr _) => "<list>".toList
  | some (.obj _) => "<dict>".toList
  | none => "None".toList

/-- The follow-up prompt fed back to the model after a tool run. -/
def contextPrompt (userText : List Char) (toolName : Option J)
    (toolResult : List Char) : List Char :=
  "User said: ".toList ++ userText
    ++ "\nYou requested tool '".toList ++ pyStrOfField toolName
    ++ "'.\nResult: ".toList ++ toolResult
    ++ "\nNow provide the final response to the user.".toList

/-- Translation of the response loop of process: each response whose type
field reads tool_use (the skill registry is always wired by the
orchestrator) is executed and replaced by the follow-up query results;
anything else is kept as is; the get call on a non-dict response raises out
of process. -/
def processLoop (env : LlmEnv) (userText : List Char) :
    List J → Except PyErr (List J)
  | [] => .ok []
  | r :: rest =>
      match pyGet r typeKey with
      | .error e => .error e
      | .ok t =>
          match t with
          | some (.str s) =>
              if s = toolUseTag then
                match pyGet r toolNameKey, pyGet r toolArgsKey with
                | .ok tn, .ok taRaw =>
                    let tr := execTool env tn taRaw
                    let fu := queryLlm env (contextPrompt userText tn tr)
                    match processLoop env userText rest with
                    | .error e => .error e
                    | .ok rs => .ok (fu ++ rs)
                | .error e, _ => .error e
                | _, .error e => .error e
              else
                match processLoop env userText rest with
                | .error e => .error e
                | .ok rs => .ok (r :: rs)
          | _ =>
              match processLoop env userText rest with
              | .error e => .error e
              | .ok rs => .ok (r :: rs)

/-- Translation of LLMService process on the direct (non-moltbot) path:
query, then the tool-use loop over the responses. -/
def process (env : LlmEnv) (userText : List Char) : Except PyErr (List J) :=
  processLoop env userText (queryLlm env userText)

/-- A response that the loop keeps untouched: a dict whose type field is not
the tool_use marker. -/
def isPlainAction : J → Bool
  | .obj fs =>
      match getField fs typeKey with
      | some (.str s) => !(s = toolUseTag : Bool)
      | _ => true
  | _ => false

/-- The response loop keeps a list of plain (non-tool, dict) actions
untouched. -/
theorem processLoop_plain (env : LlmEnv) (u : List Char) :
    ∀ xs : List J, (∀ x ∈ xs, isPlainAction x = true) →
      processLoop env u xs = .ok xs := by
  intro xs
  induction xs with
  | nil => intro h; rfl
  | cons r rest ih =>
      intro h
      have hr := h r (List.mem_cons_self r rest)
      have hrest := ih (fun x hx => h x (List.mem_cons_of_mem r hx))
      cases r with
      | obj fs =>
          cases hg : getField fs typeKey with
          | none => simp [processLoop, pyGet, hg, hrest]
          | some v =>
              cases v with
              | str s =>
                  have hs : ¬ (s = toolUseTag) := by
                    simp [isPlainAction, hg] at hr
                    exact hr
                  simp [processLoop, pyGet, hg, hs, hrest]
              | null => simp [processLoop, pyGet, hg, hrest]
              | bool b => simp [processLoop, pyGet, hg, hrest]
              | num n => simp [processLoop, pyGet, hg, hrest]
              | arr l => simp [processLoop, pyGet, hg, hrest]
              | obj l => simp [processLoop, pyGet, hg, hrest]
      | null => simp [isPlainAction] at hr
      | bool b => simp [isPlainAction] at hr
      | num n => simp [isPlainAction] at hr
      | str s => simp [isPlainAction] at hr
      | arr l => simp [isPlainAction] at hr

/-- Environment whose API reply is the empty JSON array. -/
def envEmptyArr : LlmEnv :=
  ⟨true, fun _ => .ok "[]".toList, [], fun _ => [], false⟩

/-- Environment whose API reply is a JSON array holding a bare number. -/
def envNumArr : LlmEnv :=
  ⟨true, fun _ => .ok "[1]".toList, [], fun _ => [], false⟩

/-- C9 counterexample: a reply of an empty JSON array makes process return an
empty action list (not a non-empty one, and no fallback), and a reply whose
array holds a non-dict makes process raise an attribute error to its caller
(the get call on the element), so process neither always returns a non-empty
list nor never raises. -/
theorem process_empty_or_raises :
    process envEmptyArr "hi".toList = .ok []
    ∧ process envNumArr "hi".toList = .error .attributeError :=
  ⟨rfl, rfl⟩

/-- The response parser takes the list path at the first bracket whenever a
bracket exists and no brace sits before it. -/
theorem parseLlmResponse_list_path (reply : List Char) (k : Nat)
    (hk : findIdx reply '[' = some k)
    (hb : ∀ b, findIdx reply lbrace = some b → ¬ b < k) :
    parseLlmResponse reply = parseFromList reply k := by
  cases hbr : findIdx reply lbrace with
  | none => simp [parseLlmResponse, hbr, hk]
  | some b =>
      have := hb b hbr
      simp [parseLlmResponse, hbr, hk, this]

/-- The response parser takes the object-scan path whenever a brace exists
and every bracket sits after it. -/
theorem parseLlmResponse_obj_path (reply : List Char) (b : Nat)
    (hb : findIdx reply lbrace = some b)
    (hk : ∀ k, findIdx reply '[' = some k → b < k) :
    parseLlmResponse reply = parseFromObjScan reply := by
  cases hkr : findIdx reply '[' with
  | none => simp [parseLlmResponse, hb, hkr]
  | some k =>
      have := hk k hkr
      simp [parseLlmResponse, hb, hkr, this]

/-- The two fixed fallbacks are plain conversational actions. -/
theorem fallback_singleton_plain (v : J) (hv : isPlainAction v = true) :
    ∀ x ∈ [v], isPlainAction x = true := by
  intro x hx
  simp only [List.mem_singleton] at hx
  subst hx
  exact hv

/-- C9 (amended): on an API exception process returns, without raising, the
single trouble fallback conversational action; it returns the single
tongue-tied fallback whenever no JSON can be extracted from the reply — no
opener at all, a list slice that fails to load, or a brace scan that decodes
no object; and whenever the reply's first opener is a bracket (any brace
comes only later) and the slice up to the last closing bracket loads as a
JSON array of plain (non-tool, dict) actions, process returns exactly those
elements, so an empty array yields an empty action list. -/
theorem process_fallback_or_parsed_array :
    (∀ (env : LlmEnv) (txt : List Char),
       env.clientSome = true → env.api txt = .fail →
       process env txt = .ok [fallbackTrouble])
    ∧ (∀ (env : LlmEnv) (txt reply : List Char),
       env.clientSome = true → env.api txt = .ok reply →
       findIdx reply lbrace = none → findIdx reply '[' = none →
       process env txt = .ok [fallbackTongue])
    ∧ (∀ (env : LlmEnv) (txt reply : List Char) (k : Nat),
       env.clientSome = true → env.api txt = .ok reply →
       findIdx reply '[' = some k →
       (∀ b, findIdx reply lbrace = some b → ¬ b < k) →
       jsonLoads (listSlice reply k) = none →
       process env txt = .ok [fallbackTongue])
    ∧ (∀ (env : LlmEnv) (txt reply : List Char) (b : Nat),
       env.clientSome = true → env.api txt = .ok reply →
       findIdx reply lbrace = some b →
       (∀ k, findIdx reply '[' = some k → b < k) →
       scanObjs reply = [] →
       process env txt = .ok [fallbackTongue])
    ∧ (∀ (env : LlmEnv) (txt reply : List Char) (k : Nat) (xs : List J),
       env.clientSome = true → env.api txt = .ok reply →
       findIdx reply '[' = some k →
       (∀ b, findIdx reply lbrace = some b → ¬ b < k) →
       jsonLoads (listSlice reply k) = some (.arr xs) →
       (∀ x ∈ xs, isPlainAction x = true) →
       process env txt = .ok xs) := by
  refine ⟨?_, ?_, ?_, ?_, ?_⟩
  · intro env txt hc hapi
    simp only [process, queryLlm, hc, hapi, Bool.true_eq_false, if_false]
    exact processLoop_plain env txt [fallbackTrouble]
      (fallback_singleton_plain fallbackTrouble rfl)
  · intro env txt reply hc hapi h1 h2
    simp only [process, queryLlm, hc, hapi, Bool.true_eq_false, if_false,
      parseLlmResponse, h1, h2]
    exact processLoop_plain env txt [fallbackTongue]
      (fallback_singleton_plain fallbackTongue rfl)
  · intro env txt reply k hc hapi hk hb hload
    simp only [process, queryLlm, hc, hapi, Bool.true_eq_false, if_false,
      parseLlmResponse_list_path reply k hk hb, parseFromList, hload]
    exact processLoop_plain env txt [fallbackTongue]
      (fallback_singleton_plain fallbackTongue rfl)
  · intro env txt reply b hc hapi hb hk hscan
    simp only [process, queryLlm, hc, hapi, Bool.true_eq_false, if_false,
      parseLlmResponse_obj_path reply b hb hk, parseFromObjScan, hscan]
    exact processLoop_plain env txt [fallbackTongue]
      (fallback_singleton_plain fallbackTongue rfl)
  · intro env txt reply k xs hc hapi hk hb hload hplain
    simp only [process, queryLlm, hc, hapi, Bool.true_eq_false, if_false,
      parseLlmResponse_list_path reply k hk hb, parseFromList, hload]
    exact processLoop_plain env txt xs hplain

/-- Environment whose API call raises. -/
def envFailApi : LlmEnv := ⟨true, fun _ => .fail, [], fun _ => [], false⟩

/-- A concrete plain conversational action, as decoded from sampleReply. -/
def sampleAction : J :=
  .obj [("type".toList, .str "conversation".toList),
        ("english_response".toList, .str "howdy".toList)]

/-- A reply whose first opener is the bracket of a one-element JSON array of
action objects (the braces of the object come later). -/
def sampleReply : List Char :=
  "[\x7b\"type\": \"conversation\", \"english_response\": \"howdy\"\x7d]".toList

/-- Environment whose API reply is sampleReply. -/
def envArrObj : LlmEnv :=
  ⟨true, fun _ => .ok sampleReply, [], fun _ => [], false⟩

/-- C9 witness: an API failure concretely yields the single trouble
fallback; the empty-array reply concretely yields the empty list; and a
one-element array of a plain action object concretely yields exactly that
action. -/
theorem process_fallback_witness :
    process envFailApi "howdy".toList = .ok [fallbackTrouble]
    ∧ process envEmptyArr "one more".toList = .ok []
    ∧ process envArrObj "dance partner".toList = .ok [sampleAction] :=
  ⟨process_fallback_or_parsed_array.1 envFailApi "howdy".toList rfl rfl,
   process_fallback_or_parsed_array.2.2.2.2 envEmptyArr "one more".toList
     "[]".toList 0 [] rfl rfl rfl (fun b _ => Nat.not_lt_zero b) rfl (by simp),
   process_fallback_or_parsed_array.2.2.2.2 envArrObj "dance partner".toList
     sampleReply 0 [sampleAction] rfl rfl rfl (fun b _ => Nat.not_lt_zero b) rfl
     (fallback_singleton_plain sampleAction rfl)⟩

end BrainRider
